import Mathlib

/-!
# Verification of `smol/utils/darknet.py`

A shallow embedding of the Darknet weight-loading code: `darknet_numel`,
`_load_conv_norm`, `_load_conv` and `load_darknet_weights`, together with the
model structures they traverse (`ConvLayer`, `nn.BatchNorm2d`, generic
`nn.Module` containers).

Floating-point payload values are represented by their 32-bit patterns as
natural numbers: the loader copies values bit-for-bit (same dtype on both
sides of every `copy_`), so no arithmetic on the values ever happens and the
bit pattern is a faithful representation.
-/

namespace Darknet

/-- A tensor: a shape, flat row-major data (32-bit patterns), and the
`requires_grad` flag.  `numel` is the product of the shape's dimensions and
`len` (Python `len()`) is the size of the leading dimension. -/
structure Tensor where
  shape : List Nat
  data : List Nat
  requires_grad : Bool
deriving Repr, DecidableEq

def Tensor.numel (t : Tensor) : Nat := t.shape.prod

/-- Python `len(t)`: the size of the first dimension. -/
def Tensor.len (t : Tensor) : Nat := t.shape.headD 0

/-- Model of `torch.nn.BatchNorm2d`: affine parameters `weight`/`bias` and running
statistics `running_mean`/`running_var` (1-dimensional buffers). -/
structure BatchNorm2d where
  weight : Tensor
  bias : Tensor
  running_mean : Tensor
  running_var : Tensor
deriving Repr, DecidableEq

/-- Model of `torch.nn.Conv2d`: a weight and an optional bias. -/
structure Conv2d where
  weight : Tensor
  bias : Option Tensor
deriving Repr, DecidableEq

/-- Modelled from the spec: `smol.modules.ConvLayer` (its source is outside
`src/`).  A convolution-bearing layer: a `conv` sub-module, a `batch_norm`
flag, and, when normalization is present, a `norm` sub-module holding the
`BatchNorm2d`. -/
structure ConvLayer where
  batch_norm : Bool
  conv : Conv2d
  norm : Option BatchNorm2d
deriving Repr, DecidableEq

/-- An `nn.Module` tree: a `ConvLayer`, a bare `BatchNorm2d`, or a generic
container module with its own parameters and a list of child modules (this
also models "any other layer kind"). -/
inductive Module where
  | convLayer : ConvLayer → Module
  | batchNorm2d : BatchNorm2d → Module
  | container : List Tensor → List Module → Module
deriving Repr

/-- The parameters owned by a `ConvLayer` (as `model.parameters()` would
yield them through the module hierarchy): conv weight, conv bias when
present, and the affine parameters of the normalization when present.
Running statistics are buffers, not parameters. -/
def ConvLayer.params (cl : ConvLayer) : List Tensor :=
  cl.conv.weight ::
    ((match cl.conv.bias with
      | some b => [b]
      | none => []) ++
     (match cl.norm with
      | some bn => [bn.weight, bn.bias]
      | none => []))

mutual

/-- Python `model.parameters()`: every parameter tensor in the module tree. -/
def Module.params : Module → List Tensor
  | .convLayer cl => cl.params
  | .batchNorm2d bn => [bn.weight, bn.bias]
  | .container ps cs => ps ++ paramsList cs

def paramsList : List Module → List Tensor
  | [] => []
  | m :: ms => m.params ++ paramsList ms

end

mutual

/-- All `BatchNorm2d` instances among `model.modules()` (the module itself
and every descendant, at every depth). -/
def Module.bns : Module → List BatchNorm2d
  | .convLayer cl =>
    (match cl.norm with
     | some bn => [bn]
     | none => [])
  | .batchNorm2d bn => [bn]
  | .container _ cs => bnsList cs

def bnsList : List Module → List BatchNorm2d
  | [] => []
  | m :: ms => m.bns ++ bnsList ms

end

/-- Source `darknet_numel(model)`: the element count of all parameters requiring
gradients plus, for every `BatchNorm2d` module anywhere in the tree,
`len(running_mean) + len(running_var)`. -/
def darknet_numel (model : Module) : Nat :=
  ((model.params.filter fun p => p.requires_grad).map Tensor.numel).sum
    + ((model.bns.map fun m => m.running_mean.len + m.running_var.len)).sum

/-- Slicing `weights[:n], weights[n:]` followed by `view_as` on a tensor of `numel`
`n`: succeeds exactly when at least `n` elements remain (otherwise the numpy
slice is short and `view_as` raises). -/
def splitOff (n : Nat) (w : List Nat) : Option (List Nat × List Nat) :=
  if n ≤ w.length then some (w.take n, w.drop n) else none

/-- Source `_load_conv_norm(weights, module)`: consume norm bias, norm weight,
running mean, running variance, then conv weight; write each slice into its
destination tensor; return the remaining weights.  `none` models the Python
exception paths (missing `norm`, or a short slice failing `view_as`); note
the source performs all five slice/view steps before any copy, so a failing
layer is left unmutated. -/
def _load_conv_norm (weights : List Nat) (module : ConvLayer) :
    Option (ConvLayer × List Nat) := do
  let norm ← module.norm
  let (norm_bias, weights) ← splitOff norm.bias.numel weights
  let (norm_weight, weights) ← splitOff norm.weight.numel weights
  let (norm_mean, weights) ← splitOff norm.running_mean.numel weights
  let (norm_var, weights) ← splitOff norm.running_var.numel weights
  let (conv_weight, weights) ← splitOff module.conv.weight.numel weights
  some
    ({ module with
        norm := some
          { norm with
            bias := { norm.bias with data := norm_bias },
            weight := { norm.weight with data := norm_weight },
            running_mean := { norm.running_mean with data := norm_mean },
            running_var := { norm.running_var with data := norm_var } },
        conv :=
          { module.conv with
            weight := { module.conv.weight with data := conv_weight } } },
      weights)

/-- Source `_load_conv(weights, module)`: consume conv bias then conv weight; write
each into its destination tensor; return the remaining weights.  `none`
models the Python exception paths (a `None` bias, or a short slice). -/
def _load_conv (weights : List Nat) (module : ConvLayer) :
    Option (ConvLayer × List Nat) := do
  let bias ← module.conv.bias
  let (conv_bias, weights) ← splitOff bias.numel weights
  let (conv_weight, weights) ← splitOff module.conv.weight.numel weights
  some
    ({ module with
        conv :=
          { weight := { module.conv.weight with data := conv_weight },
            bias := some { bias with data := conv_bias } } },
      weights)

/-- Whether a module is an instance of `ConvLayer`
(`isinstance(module, ConvLayer)`). -/
def Module.isConvLayer : Module → Bool
  | .convLayer _ => true
  | _ => false

/-- Python `model.named_children()`: the direct child modules.  Modelled from the
spec for the `ConvLayer` case (its source is outside `src/`): a `ConvLayer`'s
children are its `conv`/`norm` sub-modules, none of which is itself a
`ConvLayer`; only the normalization child matters to any function here. -/
def Module.children : Module → List Module
  | .container _ cs => cs
  | .convLayer cl =>
    (match cl.norm with
     | some bn => [Module.batchNorm2d bn]
     | none => [])
  | .batchNorm2d _ => []

/-- Replace a container's direct children (the in-place mutation of the
loop's target layers, reflected functionally). -/
def Module.withChildren : Module → List Module → Module
  | .container ps _, cs => .container ps cs
  | m, _ => m

/-- The `for name, module in model.named_children()` loop: walk the direct
children in order; a `ConvLayer` child consumes via `_load_conv_norm` or
`_load_conv` according to its `batch_norm` flag; any other child is skipped.
Returns the updated children, the remaining weights, and `false` when a
layer load raised (in which case that layer and all later ones are
unchanged, as in the source). -/
def loadLayers : List Nat → List Module → List Module × List Nat × Bool
  | weights, [] => ([], weights, true)
  | weights, Module.convLayer module :: ms =>
    match
      (if module.batch_norm then _load_conv_norm weights module
       else _load_conv weights module) with
    | none => (Module.convLayer module :: ms, weights, false)
    | some (module', weights') =>
      let r := loadLayers weights' ms
      (Module.convLayer module' :: r.1, r.2.1, r.2.2)
  | weights, m :: ms =>
    let r := loadLayers weights ms
    (m :: r.1, r.2.1, r.2.2)

/-- Group a byte list into 32-bit little-endian words (numpy's
`fromfile` reading 4-byte items; trailing bytes that do not fill an item are
dropped). -/
def bytesToWords : List Nat → List Nat
  | b0 :: b1 :: b2 :: b3 :: rest =>
    (b0 + b1 * 256 + b2 * 65536 + b3 * 16777216) :: bytesToWords rest
  | _ => []

/-- Interpret a 32-bit word as a signed little-endian `int32`. -/
def decodeInt32 (w : Nat) : Int :=
  if w % 4294967296 < 2147483648 then ((w % 4294967296 : Nat) : Int)
  else ((w % 4294967296 : Nat) : Int) - 4294967296

/-- The header read: `np.fromfile(f, count=5, dtype=np.int32)` followed by
the 5-way unpacking.  With at least 20 bytes it yields the 5 signed
little-endian `int32` values and the stream positioned past them; with fewer
the unpacking of 5 values fails (`none`). -/
def readHeader (file : List Nat) : Option (List Int × List Nat) :=
  if file.length < 20 then none
  else some ((bytesToWords (file.take 20)).map decodeInt32, file.drop 20)

/-- The failure modes of `load_darknet_weights`. -/
inductive LoadError where
  | truncatedHeader
  | sizeMismatch
  | layerError
deriving Repr, DecidableEq

/-- Source `load_darknet_weights(model, weights_path)` over the file's bytes.
Returns the final model state (unchanged on the error paths that precede
any write) together with either the raised error or the returned success
flag `len(weights) == 0`. -/
def load_darknet_weights (model : Module) (file : List Nat) :
    Module × Except LoadError Bool :=
  match readHeader file with
  | none => (model, Except.error LoadError.truncatedHeader)
  | some (_header, rest) =>
    let weights := bytesToWords rest
    if darknet_numel model ≠ weights.length then
      (model, Except.error LoadError.sizeMismatch)
    else
      let r := loadLayers weights model.children
      let model' := model.withChildren r.1
      if r.2.2 then (model', Except.ok (r.2.1.length == 0))
      else (model', Except.error LoadError.layerError)

/-- Well-formedness of a tensor as `torch` guarantees it: the flat data has
exactly `numel` elements, each a 32-bit pattern. -/
def Tensor.wfb (t : Tensor) : Bool :=
  t.data.length == t.numel && t.data.all fun x => x < 4294967296

/-- Well-formedness of a layer for serialization: its tensors are
well-formed, and a normalized layer carries a `norm` sub-module while an
unnormalized one carries a conv bias. -/
def layerWf : Module → Bool
  | .convLayer cl =>
    cl.conv.weight.wfb &&
      (match cl.batch_norm, cl.norm, cl.conv.bias with
       | true, some bn, _ =>
         bn.bias.wfb && bn.weight.wfb && bn.running_mean.wfb
           && bn.running_var.wfb
       | false, _, some b => b.wfb
       | _, _, _ => false)
  | _ => true

/-- Modelled from the spec: the external Darknet writer (no writer exists in
this repository) emits each layer's tensors in the format's mandated order —
normalization bias, weight, running mean, running variance, then convolution
weight for a normalized layer; convolution bias then convolution weight for a
plain layer; nothing for any other layer kind. -/
def writeLayer : Module → List Nat
  | .convLayer cl =>
    if cl.batch_norm then
      match cl.norm with
      | some bn => bn.bias.data ++ bn.weight.data ++ bn.running_mean.data
          ++ bn.running_var.data ++ cl.conv.weight.data
      | none => []
    else
      match cl.conv.bias with
      | some b => b.data ++ cl.conv.weight.data
      | none => cl.conv.weight.data
  | _ => []

/-- Modelled from the spec: the flat payload the external writer produces
for a model — the per-layer serializations of its layers, concatenated in
order. -/
def writeModel (model : Module) : List Nat :=
  (model.children.map writeLayer).flatten

/-- Encode 32-bit words back into little-endian bytes (the inverse of
`bytesToWords` on 32-bit values). -/
def wordsToBytes : List Nat → List Nat
  | [] => []
  | w :: ws => w % 256 :: w / 256 % 256 :: w / 65536 % 256
      :: w / 16777216 % 256 :: wordsToBytes ws


/-! ## Concrete sample data used by the evaluation theorems -/

def sampleBias : Tensor :=
  { shape := [2], data := [10, 11], requires_grad := true }

def sampleWeight : Tensor :=
  { shape := [2, 1, 1, 1], data := [20, 21], requires_grad := true }

def sampleNormWeight : Tensor :=
  { shape := [2], data := [30, 31], requires_grad := true }

def sampleNormBias : Tensor :=
  { shape := [2], data := [40, 41], requires_grad := true }

def sampleMean : Tensor :=
  { shape := [2], data := [50, 51], requires_grad := false }

def sampleVar : Tensor :=
  { shape := [2], data := [60, 61], requires_grad := false }

def sampleBN : BatchNorm2d :=
  { weight := sampleNormWeight, bias := sampleNormBias,
    running_mean := sampleMean, running_var := sampleVar }

def plainConv : ConvLayer :=
  { batch_norm := false,
    conv := { weight := sampleWeight, bias := some sampleBias },
    norm := none }

def normConv : ConvLayer :=
  { batch_norm := true,
    conv := { weight := sampleWeight, bias := none },
    norm := some sampleBN }

def plainModel : Module := .container [] [.convLayer plainConv]

def normModel : Module := .container [] [.convLayer normConv]

def nestedModel : Module :=
  .container [] [.container [] [.convLayer plainConv]]

def zeroHeader : List Nat := List.replicate 20 0

def altHeader : List Nat := List.range 20

def plainGoodFile : List Nat := zeroHeader ++ wordsToBytes [1, 2, 3, 4]

def plainBadFile : List Nat := zeroHeader ++ wordsToBytes [1, 2, 3]

def nestedFile : List Nat := zeroHeader ++ wordsToBytes [1, 2, 3, 4]

/-! ## Basic lemmas -/

theorem splitOff_of_le {n : Nat} {w : List Nat} (h : n ≤ w.length) :
    splitOff n w = some (w.take n, w.drop n) := by
  simp [splitOff, h]

theorem splitOff_append (l r : List Nat) (n : Nat) (h : l.length = n) :
    splitOff n (l ++ r) = some (l, r) := by
  subst h
  simp [splitOff, List.take_left, List.drop_left]

theorem readHeader_of_le {file : List Nat} (h : 20 ≤ file.length) :
    readHeader file = some
      ((bytesToWords (file.take 20)).map decodeInt32, file.drop 20) := by
  simp [readHeader, Nat.not_lt.2 h]

theorem withChildren_children (m : Module) :
    m.withChildren m.children = m := by
  cases m with
  | convLayer cl => rfl
  | batchNorm2d bn => rfl
  | container ps cs => rfl

theorem bytesToWords_length : (l : List Nat) → (bytesToWords l).length = l.length / 4
  | [] => rfl
  | [_] => by simp [bytesToWords]
  | [_, _] => by simp [bytesToWords]
  | [_, _, _] => by simp [bytesToWords]
  | _ :: _ :: _ :: _ :: rest => by
    simp [bytesToWords, bytesToWords_length rest]
    omega

theorem bytesToWords_wordsToBytes (ws : List Nat)
    (h : ∀ x ∈ ws, x < 4294967296) :
    bytesToWords (wordsToBytes ws) = ws := by
  induction ws with
  | nil => rfl
  | cons w ws ih =>
    have hw : w < 4294967296 := h w (by simp)
    have hws : ∀ x ∈ ws, x < 4294967296 := fun x hx => h x (by simp [hx])
    simp only [wordsToBytes, bytesToWords, ih hws]
    congr 1
    omega

theorem Tensor.len_eq_numel {t : Tensor} (h : t.shape.length = 1) :
    t.len = t.numel := by
  obtain ⟨a, ha⟩ : ∃ a, t.shape = [a] := by
    match hs : t.shape with
    | [a] => exact ⟨a, rfl⟩
    | [] => rw [hs] at h; simp at h
    | a :: b :: l => rw [hs] at h; simp at h
  simp [Tensor.len, Tensor.numel, ha]

theorem loadLayers_skip_aux (weights : List Nat) (m : Module)
    (ms : List Module) (h : m.isConvLayer = false) :
    loadLayers weights (m :: ms) =
      (m :: (loadLayers weights ms).1, (loadLayers weights ms).2.1,
        (loadLayers weights ms).2.2) := by
  cases m with
  | convLayer cl => simp [Module.isConvLayer] at h
  | batchNorm2d bn => rfl
  | container ps cs => rfl

theorem loadLayers_skip_all (weights : List Nat) (ms : List Module)
    (h : ∀ m ∈ ms, m.isConvLayer = false) :
    loadLayers weights ms = (ms, weights, true) := by
  induction ms with
  | nil => rfl
  | cons m ms ih =>
    have hm := h m (by simp)
    have hms : ∀ x ∈ ms, x.isConvLayer = false := fun x hx => h x (by simp [hx])
    rw [loadLayers_skip_aux weights m ms hm, ih hms]

/-! ## Round-trip lemmas -/

theorem Tensor.wfb_length {t : Tensor} (h : t.wfb = true) :
    t.data.length = t.numel := by
  simp only [Tensor.wfb, Bool.and_eq_true, beq_iff_eq] at h
  exact h.1

theorem Tensor.wfb_lt {t : Tensor} (h : t.wfb = true) :
    ∀ x ∈ t.data, x < 4294967296 := by
  simp only [Tensor.wfb, Bool.and_eq_true, List.all_eq_true,
    decide_eq_true_eq] at h
  exact h.2

theorem load_conv_norm_write (cl : ConvLayer) (rest : List Nat)
    (hflag : cl.batch_norm = true)
    (hwf : layerWf (Module.convLayer cl) = true) :
    _load_conv_norm (writeLayer (Module.convLayer cl) ++ rest) cl
      = some (cl, rest) := by
  obtain ⟨flag, ⟨cw, cb⟩, cn⟩ := cl
  subst hflag
  cases cn with
  | none => simp [layerWf] at hwf
  | some bn =>
    simp only [layerWf, Bool.and_eq_true] at hwf
    obtain ⟨h1, ⟨⟨⟨h2, h3⟩, h4⟩, h5⟩⟩ := hwf
    simp only [writeLayer, if_true, List.append_assoc]
    simp [_load_conv_norm,
      splitOff_append _ _ _ (Tensor.wfb_length h2),
      splitOff_append _ _ _ (Tensor.wfb_length h3),
      splitOff_append _ _ _ (Tensor.wfb_length h4),
      splitOff_append _ _ _ (Tensor.wfb_length h5),
      splitOff_append _ _ _ (Tensor.wfb_length h1)]

theorem load_conv_write (cl : ConvLayer) (rest : List Nat)
    (hflag : cl.batch_norm = false)
    (hwf : layerWf (Module.convLayer cl) = true) :
    _load_conv (writeLayer (Module.convLayer cl) ++ rest) cl
      = some (cl, rest) := by
  obtain ⟨flag, ⟨cw, cb⟩, cn⟩ := cl
  subst hflag
  cases cb with
  | none => simp [layerWf] at hwf
  | some b =>
    simp only [layerWf, Bool.and_eq_true] at hwf
    obtain ⟨h1, h2⟩ := hwf
    simp [writeLayer, _load_conv,
      splitOff_append _ _ _ (Tensor.wfb_length h2),
      splitOff_append _ _ _ (Tensor.wfb_length h1)]

theorem loadLayers_write (cs : List Module) (rest : List Nat)
    (hwf : ∀ m ∈ cs, layerWf m = true) :
    loadLayers ((cs.map writeLayer).flatten ++ rest) cs = (cs, rest, true) := by
  induction cs with
  | nil => rfl
  | cons m ms ih =>
    have h1 := hwf m (by simp)
    have h2 : ∀ x ∈ ms, layerWf x = true := fun x hx => hwf x (by simp [hx])
    have hflat : ((m :: ms).map writeLayer).flatten ++ rest
        = writeLayer m ++ ((ms.map writeLayer).flatten ++ rest) := by
      simp
    rw [hflat]
    cases m with
    | convLayer cl =>
      cases hbn : cl.batch_norm with
      | true =>
        rw [loadLayers, if_pos hbn, load_conv_norm_write cl _ hbn h1]
        simp [ih h2]
      | false =>
        rw [loadLayers]
        rw [if_neg (by rw [hbn]; exact Bool.false_ne_true)]
        rw [load_conv_write cl _ hbn h1]
        simp [ih h2]
    | batchNorm2d bn =>
      rw [loadLayers_skip_aux _ _ _ (by rfl)]
      simp [writeLayer, ih h2]
    | container ps cs2 =>
      rw [loadLayers_skip_aux _ _ _ (by rfl)]
      simp [writeLayer, ih h2]

theorem writeLayer_lt (m : Module) (h : layerWf m = true) :
    ∀ x ∈ writeLayer m, x < 4294967296 := by
  cases m with
  | convLayer cl =>
    obtain ⟨flag, ⟨cw, cb⟩, cn⟩ := cl
    cases flag with
    | true =>
      cases cn with
      | none => simp [layerWf] at h
      | some bn =>
        simp only [layerWf, Bool.and_eq_true] at h
        obtain ⟨h1, ⟨⟨⟨h2, h3⟩, h4⟩, h5⟩⟩ := h
        intro x hx
        simp only [writeLayer, if_true, List.append_assoc,
          List.mem_append] at hx
        rcases hx with hx | hx | hx | hx | hx
        · exact Tensor.wfb_lt h2 x hx
        · exact Tensor.wfb_lt h3 x hx
        · exact Tensor.wfb_lt h4 x hx
        · exact Tensor.wfb_lt h5 x hx
        · exact Tensor.wfb_lt h1 x hx
    | false =>
      cases cb with
      | none => simp [layerWf] at h
      | some b =>
        simp only [layerWf, Bool.and_eq_true] at h
        obtain ⟨h1, h2⟩ := h
        intro x hx
        simp only [writeLayer, if_false, Bool.false_eq_true,
          List.mem_append] at hx
        rcases hx with hx | hx
        · exact Tensor.wfb_lt h2 x hx
        · exact Tensor.wfb_lt h1 x hx
  | batchNorm2d bn => simp [writeLayer]
  | container ps cs => simp [writeLayer]

theorem writeModel_lt (model : Module)
    (h : ∀ m ∈ model.children, layerWf m = true) :
    ∀ x ∈ writeModel model, x < 4294967296 := by
  intro x hx
  simp only [writeModel, List.mem_flatten, List.mem_map] at hx
  obtain ⟨l, ⟨m, hm, hl⟩, hxl⟩ := hx
  exact writeLayer_lt m (h m hm) x (hl ▸ hxl)

/-! ## The claims -/

/-- C1: for a NormalizedConv layer (a `ConvLayer` with a norm), the
distributor consumes from the front of the remaining flat array in the exact
order normalization bias, normalization weight, running mean, running
variance, then convolution weight, each consumption taking exactly the
destination tensor's element count, and writes each slice into that tensor;
the convolution bias is left untouched and the remainder starts after the
five consumed blocks. -/
theorem load_conv_norm_consumption_order (weights : List Nat)
    (module : ConvLayer) (bn : BatchNorm2d) (hbn : module.norm = some bn)
    (hlen : bn.bias.numel + bn.weight.numel + bn.running_mean.numel
        + bn.running_var.numel + module.conv.weight.numel ≤ weights.length) :
    _load_conv_norm weights module = some
      ({ module with
          norm := some
            { bn with
              bias := { bn.bias with data := weights.take bn.bias.numel },
              weight := { bn.weight with
                data := (weights.drop bn.bias.numel).take bn.weight.numel },
              running_mean := { bn.running_mean with
                data := (weights.drop (bn.bias.numel + bn.weight.numel)).take
                  bn.running_mean.numel },
              running_var := { bn.running_var with
                data := (weights.drop (bn.bias.numel + bn.weight.numel
                  + bn.running_mean.numel)).take bn.running_var.numel } },
          conv :=
            { module.conv with
              weight := { module.conv.weight with
                data := (weights.drop (bn.bias.numel + bn.weight.numel
                  + bn.running_mean.numel + bn.running_var.numel)).take
                  module.conv.weight.numel } } },
        weights.drop (bn.bias.numel + bn.weight.numel + bn.running_mean.numel
          + bn.running_var.numel + module.conv.weight.numel)) := by
  have h1 : bn.bias.numel ≤ weights.length := by omega
  have h2 : bn.weight.numel ≤ (weights.drop bn.bias.numel).length := by
    simp; omega
  have h3 : bn.running_mean.numel ≤
      (weights.drop (bn.bias.numel + bn.weight.numel)).length := by
    simp; omega
  have h4 : bn.running_var.numel ≤
      (weights.drop (bn.bias.numel + bn.weight.numel
        + bn.running_mean.numel)).length := by
    simp; omega
  have h5 : module.conv.weight.numel ≤
      (weights.drop (bn.bias.numel + bn.weight.numel + bn.running_mean.numel
        + bn.running_var.numel)).length := by
    simp; omega
  simp [_load_conv_norm, hbn, splitOff_of_le h1, splitOff_of_le h2,
    splitOff_of_le h3, splitOff_of_le h4, splitOff_of_le h5]

/-- Witness for C1 at a concrete normalized layer and a 10-element array. -/
theorem load_conv_norm_consumption_order_witness :
    _load_conv_norm (List.range 10) normConv = some
      ({ normConv with
          norm := some
            { sampleBN with
              bias := { sampleBN.bias with
                data := (List.range 10).take sampleBN.bias.numel },
              weight := { sampleBN.weight with
                data := ((List.range 10).drop sampleBN.bias.numel).take
                  sampleBN.weight.numel },
              running_mean := { sampleBN.running_mean with
                data := ((List.range 10).drop (sampleBN.bias.numel
                  + sampleBN.weight.numel)).take sampleBN.running_mean.numel },
              running_var := { sampleBN.running_var with
                data := ((List.range 10).drop (sampleBN.bias.numel
                  + sampleBN.weight.numel + sampleBN.running_mean.numel)).take
                  sampleBN.running_var.numel } },
          conv :=
            { normConv.conv with
              weight := { normConv.conv.weight with
                data := ((List.range 10).drop (sampleBN.bias.numel
                  + sampleBN.weight.numel + sampleBN.running_mean.numel
                  + sampleBN.running_var.numel)).take
                  normConv.conv.weight.numel } } },
        (List.range 10).drop (sampleBN.bias.numel + sampleBN.weight.numel
          + sampleBN.running_mean.numel + sampleBN.running_var.numel
          + normConv.conv.weight.numel)) :=
  load_conv_norm_consumption_order (List.range 10) normConv sampleBN rfl
    (by decide)

/-- C2: with a readable header, `load_darknet_weights` raises the size
mismatch error exactly when the payload length differs from
`darknet_numel`; on that failure the model is returned unchanged (no tensor
mutated); and when the counts agree, the result is exactly the outcome of
the per-layer distribution. -/
theorem load_size_mismatch_check (model : Module) (file : List Nat)
    (h20 : 20 ≤ file.length) :
    ((load_darknet_weights model file).2 = Except.error LoadError.sizeMismatch
       ↔ darknet_numel model ≠ (bytesToWords (file.drop 20)).length)
    ∧ (darknet_numel model ≠ (bytesToWords (file.drop 20)).length →
        load_darknet_weights model file =
          (model, Except.error LoadError.sizeMismatch))
    ∧ (darknet_numel model = (bytesToWords (file.drop 20)).length →
        load_darknet_weights model file =
          (model.withChildren
            (loadLayers (bytesToWords (file.drop 20)) model.children).1,
           if (loadLayers (bytesToWords (file.drop 20)) model.children).2.2 then
             Except.ok
               ((loadLayers (bytesToWords (file.drop 20))
                 model.children).2.1.length == 0)
           else Except.error LoadError.layerError)) := by
  rw [load_darknet_weights, readHeader_of_le h20]
  by_cases hc : darknet_numel model = (bytesToWords (file.drop 20)).length
  · by_cases hok : (loadLayers (bytesToWords (file.drop 20))
        model.children).2.2 = true <;>
      simp [hc, hok]
  · simp [hc]

/-- Witness for C2: a 1-layer model expecting 4 elements rejects a 3-element
payload with the size mismatch error and is returned unchanged. -/
theorem load_size_mismatch_check_witness :
    load_darknet_weights plainModel plainBadFile
      = (plainModel, Except.error LoadError.sizeMismatch) :=
  (load_size_mismatch_check plainModel plainBadFile (by decide)).2.1
    (by decide)

/-- C3: for a PlainConv layer (a `ConvLayer` whose conv has a bias), the
distributor consumes from the front of the remaining flat array the
convolution bias first and then the convolution weight, each consumption
taking exactly that tensor's element count, writing each slice into its
destination tensor. -/
theorem load_conv_consumption_order (weights : List Nat)
    (module : ConvLayer) (b : Tensor) (hb : module.conv.bias = some b)
    (hlen : b.numel + module.conv.weight.numel ≤ weights.length) :
    _load_conv weights module = some
      ({ module with
          conv :=
            { weight := { module.conv.weight with
                data := (weights.drop b.numel).take module.conv.weight.numel },
              bias := some { b with data := weights.take b.numel } } },
        weights.drop (b.numel + module.conv.weight.numel)) := by
  have h1 : b.numel ≤ weights.length := by omega
  have h2 : module.conv.weight.numel ≤ (weights.drop b.numel).length := by
    simp; omega
  simp [_load_conv, hb, splitOff_of_le h1, splitOff_of_le h2]

/-- Witness for C3 at a concrete plain layer and a 5-element array. -/
theorem load_conv_consumption_order_witness :
    _load_conv (List.range 5) plainConv = some
      ({ plainConv with
          conv :=
            { weight := { plainConv.conv.weight with
                data := ((List.range 5).drop sampleBias.numel).take
                  plainConv.conv.weight.numel },
              bias := some { sampleBias with
                data := (List.range 5).take sampleBias.numel } } },
        (List.range 5).drop (sampleBias.numel
          + plainConv.conv.weight.numel)) :=
  load_conv_consumption_order (List.range 5) plainConv sampleBias rfl
    (by decide)

/-- C4: with 1-dimensional running statistics (as `BatchNorm2d` guarantees),
`darknet_numel` equals the sum of element counts over all parameters that
require gradients plus, for every `BatchNorm2d` sub-module anywhere in the
model, the element counts of its running mean and running variance. -/
theorem darknet_numel_counts (model : Module)
    (h : ∀ bn ∈ model.bns, bn.running_mean.shape.length = 1
      ∧ bn.running_var.shape.length = 1) :
    darknet_numel model =
      ((model.params.filter fun p => p.requires_grad).map Tensor.numel).sum
        + ((model.bns.map fun bn =>
            bn.running_mean.numel + bn.running_var.numel)).sum := by
  unfold darknet_numel
  congr 2
  apply List.map_congr_left
  intro bn hbn
  obtain ⟨hm, hv⟩ := h bn hbn
  rw [Tensor.len_eq_numel hm, Tensor.len_eq_numel hv]

/-- Witness for C4 at a model with one normalized layer. -/
theorem darknet_numel_counts_witness :
    darknet_numel normModel =
      ((normModel.params.filter fun p => p.requires_grad).map
        Tensor.numel).sum
        + ((normModel.bns.map fun bn =>
            bn.running_mean.numel + bn.running_var.numel)).sum :=
  darknet_numel_counts normModel (by decide)

/-- C5: when the header is readable, the count check passes and the
per-layer walk completes without raising, `load_darknet_weights` returns
`true` exactly when the flat array is fully drained, and a non-empty
remainder yields the return value `false`, not an error. -/
theorem load_success_iff_drained (model : Module) (file : List Nat)
    (h20 : 20 ≤ file.length)
    (hcount : darknet_numel model = (bytesToWords (file.drop 20)).length)
    (hok : (loadLayers (bytesToWords (file.drop 20)) model.children).2.2
      = true) :
    ((load_darknet_weights model file).2 = Except.ok true ↔
        (loadLayers (bytesToWords (file.drop 20)) model.children).2.1 = [])
    ∧ ((loadLayers (bytesToWords (file.drop 20)) model.children).2.1 ≠ [] →
        (load_darknet_weights model file).2 = Except.ok false) := by
  rw [load_darknet_weights, readHeader_of_le h20]
  simp [hcount, hok, List.length_eq_zero]

/-- Witness for C5: a 1-layer model loading a payload of exactly its
expected size succeeds with `true`. -/
theorem load_success_iff_drained_witness :
    (load_darknet_weights plainModel plainGoodFile).2 = Except.ok true :=
  (load_success_iff_drained plainModel plainGoodFile (by decide) (by decide)
    (by decide)).1.mpr (by decide)

/-- C6: the header reader fails exactly when fewer than 20 bytes are
available; otherwise it yields 5 values, which are the 5 little-endian
signed 32-bit integers of the first 20 bytes, and positions the stream
immediately after them. -/
theorem read_header_contract (file : List Nat) :
    (readHeader file = none ↔ file.length < 20)
    ∧ (∀ hdr rest, readHeader file = some (hdr, rest) →
        hdr.length = 5 ∧ rest = file.drop 20
          ∧ hdr = (bytesToWords (file.take 20)).map decodeInt32) := by
  constructor
  · constructor
    · intro h
      by_contra hlt
      rw [readHeader_of_le (Nat.not_lt.1 hlt)] at h
      exact Option.noConfusion h
    · intro h
      simp [readHeader, h]
  · intro hdr rest h
    by_cases hlt : file.length < 20
    · simp [readHeader, hlt] at h
    · rw [readHeader_of_le (Nat.not_lt.1 hlt)] at h
      obtain ⟨h1, h2⟩ := Prod.mk.injEq .. ▸ Option.some.injEq .. ▸ h
      refine ⟨?_, by simp [← h2], by simp [← h1]⟩
      rw [← h1]
      simp [bytesToWords_length]
      omega

/-- Witness for C6: a 3-byte stream is rejected by the header reader. -/
theorem read_header_contract_witness : readHeader [1, 2, 3] = none :=
  (read_header_contract [1, 2, 3]).1.mpr (by decide)

/-- C7: a child module that is not a `ConvLayer` consumes zero elements and
is returned unchanged, and the traversal continues on the remaining layers
with the same flat array. -/
theorem skip_non_conv_layer (weights : List Nat) (m : Module)
    (ms : List Module) (h : m.isConvLayer = false) :
    loadLayers weights (m :: ms) =
      (m :: (loadLayers weights ms).1, (loadLayers weights ms).2.1,
        (loadLayers weights ms).2.2) :=
  loadLayers_skip_aux weights m ms h

/-- Witness for C7: a bare `BatchNorm2d` child passes the array through
unchanged to the following conv layer. -/
theorem skip_non_conv_layer_witness :
    loadLayers [1, 2, 3, 4]
        (Module.batchNorm2d sampleBN :: [Module.convLayer plainConv]) =
      (Module.batchNorm2d sampleBN
          :: (loadLayers [1, 2, 3, 4] [Module.convLayer plainConv]).1,
        (loadLayers [1, 2, 3, 4] [Module.convLayer plainConv]).2.1,
        (loadLayers [1, 2, 3, 4] [Module.convLayer plainConv]).2.2) :=
  skip_non_conv_layer [1, 2, 3, 4] (Module.batchNorm2d sampleBN)
    [Module.convLayer plainConv] rfl

/-- C8: two files with the same payload that differ only in their 20 header
bytes load identically: same final model and same outcome. -/
theorem header_values_irrelevant (model : Module)
    (h1 h2 payload : List Nat) (e1 : h1.length = 20) (e2 : h2.length = 20) :
    load_darknet_weights model (h1 ++ payload) =
      load_darknet_weights model (h2 ++ payload) := by
  have l1 : 20 ≤ (h1 ++ payload).length := by simp [e1]
  have l2 : 20 ≤ (h2 ++ payload).length := by simp [e2]
  have d1 : (h1 ++ payload).drop 20 = payload := by
    rw [← e1]; exact List.drop_left h1 payload
  have d2 : (h2 ++ payload).drop 20 = payload := by
    rw [← e2]; exact List.drop_left h2 payload
  rw [load_darknet_weights, load_darknet_weights, readHeader_of_le l1,
    readHeader_of_le l2, d1, d2]

/-- Witness for C8: an all-zero header and a distinct header load the same
payload identically. -/
theorem header_values_irrelevant_witness :
    load_darknet_weights plainModel (zeroHeader ++ wordsToBytes [1, 2, 3, 4])
      = load_darknet_weights plainModel
        (altHeader ++ wordsToBytes [1, 2, 3, 4]) :=
  header_values_irrelevant plainModel zeroHeader altHeader
    (wordsToBytes [1, 2, 3, 4]) (by decide) (by decide)

/-- C9: round-trip — serializing a model's layers in the format's mandated
per-layer order (external writer, modelled from the spec) and loading the
result back into the model reproduces the model bit-for-bit with success
`true`, for well-formed layers whose serialized length matches
`darknet_numel`. -/
theorem write_load_round_trip (model : Module) (header : List Nat)
    (hh : header.length = 20)
    (hwf : ∀ m ∈ model.children, layerWf m = true)
    (hcount : darknet_numel model = (writeModel model).length) :
    load_darknet_weights model (header ++ wordsToBytes (writeModel model))
      = (model, Except.ok true) := by
  have hwb : bytesToWords (wordsToBytes (writeModel model))
      = writeModel model :=
    bytesToWords_wordsToBytes _ (writeModel_lt model hwf)
  have hlen : wordsToBytes (writeModel model) =
      (header ++ wordsToBytes (writeModel model)).drop 20 := by
    rw [← hh, List.drop_left]
  have h20 : 20 ≤ (header ++ wordsToBytes (writeModel model)).length := by
    simp [hh]
  rw [load_darknet_weights, readHeader_of_le h20, ← hlen]
  have hload : loadLayers (writeModel model) model.children
      = (model.children, [], true) := by
    have := loadLayers_write model.children [] hwf
    rwa [List.append_nil] at this
  simp [hwb, hcount, hload, withChildren_children]

/-- Witness for C9: a model with one normalized layer loads its own
serialization back, bit-for-bit, with success `true`. -/
theorem write_load_round_trip_witness :
    load_darknet_weights normModel
        (zeroHeader ++ wordsToBytes (writeModel normModel))
      = (normModel, Except.ok true) :=
  write_load_round_trip normModel zeroHeader (by decide) (by decide)
    (by decide)

/-- C10: when no direct child of the model is a `ConvLayer` (for example
when every `ConvLayer` sits at depth two or more), the loader writes nothing
— the model comes back unchanged — yet the count check can pass (it counts
parameters at every depth), and a non-empty payload then yields the return
value `false`. -/
theorem nested_conv_layers_untouched (model : Module) (file : List Nat)
    (hchild : ∀ m ∈ model.children, m.isConvLayer = false)
    (h20 : 20 ≤ file.length)
    (hcount : darknet_numel model = (bytesToWords (file.drop 20)).length)
    (hne : (bytesToWords (file.drop 20)).length ≠ 0) :
    load_darknet_weights model file = (model, Except.ok false) := by
  rw [load_darknet_weights, readHeader_of_le h20]
  simp [hcount, loadLayers_skip_all _ _ hchild, withChildren_children, hne]

/-- Witness for C10: a model whose only `ConvLayer` sits at depth two passes
the count check (4 elements) but loads nothing and returns `false`. -/
theorem nested_conv_layers_untouched_witness :
    load_darknet_weights nestedModel nestedFile
      = (nestedModel, Except.ok false) :=
  nested_conv_layers_untouched nestedModel nestedFile (by decide) (by decide)
    (by decide) (by decide)

end Darknet
